import Mathlib

/-!
Verification of the SystemSoftware-Final training pipeline.

The repository implements a four-stage process pipeline
(preprocess -> forward_layer -> backward_layer -> logger) driven by a
trainer (orchestrator).  The numeric kernel is a fixed two-layer ReLU
network trained by plain SGD.  We embed the relevant C++ functions as
Lean functions, with machine floats modelled by exact rationals
(the properties at stake are structural: dataflow order, which state is
mutated, which arguments are read, which lines are emitted) and the
process/file-system interactions modelled by explicit event lists.
-/

namespace SysSW

/-- `common::INPUT_DIM` from common.hpp. -/
def INPUT_DIM : ℕ := 4

/-- `HIDDEN_DIM` from math_layer.cpp. -/
def HIDDEN_DIM : ℕ := 8

/-- `LEARNING_RATE = 0.001f` from math_layer.cpp. -/
def LEARNING_RATE : ℚ := 1 / 1000

/-- `common::Sample`: feature vector, label, id. -/
structure Sample where
  x : Fin 4 → ℚ
  y : ℚ
  id : ℤ
deriving DecidableEq

/-- The mutable model state of math_layer.cpp: `g_W1`, `g_b1`, `g_w2`, `g_b2`. -/
structure Params where
  W1 : Fin 8 → Fin 4 → ℚ
  b1 : Fin 8 → ℚ
  w2 : Fin 8 → ℚ
  b2 : ℚ
deriving DecidableEq

/-- `FEATURE_MEAN = {0, 0, 0, 0}` from math_layer.cpp. -/
def FEATURE_MEAN : Fin 4 → ℚ := ![0, 0, 0, 0]

/-- `FEATURE_STD = {1, 1, 1, 1}` from math_layer.cpp. -/
def FEATURE_STD : Fin 4 → ℚ := ![1, 1, 1, 1]

/-- Initial value of `g_W1` (0.10f = 1/10). -/
def init_W1 : Fin 8 → Fin 4 → ℚ :=
  ![![1/10, 0, 0, 0],
    ![0, 1/10, 0, 0],
    ![0, 0, 1/10, 0],
    ![0, 0, 0, 1/10],
    ![-(1/10), 0, 0, 0],
    ![0, -(1/10), 0, 0],
    ![0, 0, -(1/10), 0],
    ![0, 0, 0, -(1/10)]]

/-- Initial value of `g_b1`. -/
def init_b1 : Fin 8 → ℚ := ![0, 0, 0, 0, 0, 0, 0, 0]

/-- Initial value of `g_w2` (0.05f = 1/20). -/
def init_w2 : Fin 8 → ℚ :=
  ![1/20, 1/20, 1/20, 1/20, -(1/20), -(1/20), -(1/20), -(1/20)]

/-- Initial value of `g_b2`. -/
def init_b2 : ℚ := 0

/-- The default initial parameter state of the math layer. -/
def init_params : Params :=
  { W1 := init_W1, b1 := init_b1, w2 := init_w2, b2 := init_b2 }

/-- `normalize_features`: `x[i] <- (x[i] - mean[i]) / std[i]`. -/
def normalize_features (x : Fin 4 → ℚ) : Fin 4 → ℚ :=
  fun i => (x i - FEATURE_MEAN i) / FEATURE_STD i

/-- `math::normalize_sample`: normalize the features of a sample in place. -/
def normalize_sample (s : Sample) : Sample :=
  { s with x := normalize_features s.x }

/-- `augment`: square the last feature (`x[INPUT_DIM - 1]`). -/
def augment (x : Fin 4 → ℚ) : Fin 4 → ℚ :=
  fun i => if i = 3 then x 3 * x 3 else x i

/-- `math::augment_features`. -/
def augment_features (s : Sample) : Sample :=
  { s with x := augment s.x }

/-- `relu(z) = max(0, z)` as written in math_layer.cpp. -/
def relu (z : ℚ) : ℚ := if z > 0 then z else 0

/-- Hidden pre-activations of `forward_all`: `z1[j] = b1[j] + sum_k W1[j][k] * x[k]`. -/
def forward_z1 (p : Params) (s : Sample) : Fin 8 → ℚ :=
  fun j => p.b1 j + Finset.univ.sum fun k => p.W1 j k * s.x k

/-- Hidden activations of `forward_all`: `a1[j] = relu(z1[j])`. -/
def forward_a1 (p : Params) (s : Sample) : Fin 8 → ℚ :=
  fun j => relu (forward_z1 p s j)

/-- Output of `forward_all` / `math::compute_forward`:
`yhat = b2 + sum_j w2[j] * a1[j]`. -/
def compute_forward (p : Params) (s : Sample) : ℚ :=
  p.b2 + Finset.univ.sum fun j => p.w2 j * forward_a1 p s j

/-- `backward_internal` from math_layer.cpp: given the forward-pass
intermediates `z1`, `a1` and the prediction `y_hat`, compute the loss,
the squared L2 norm of the gradient (the code reports its square root as
`grad_norm`; we keep the exact square, which determines it), and the
updated parameters after one SGD step. -/
def backward_internal (p : Params) (s : Sample) (y_hat : ℚ)
    (z1 a1 : Fin 8 → ℚ) : ℚ × ℚ × Params :=
  let diff := y_hat - s.y
  let loss_out := 1/2 * diff * diff
  let dL_dz2 := diff
  let dL_dw2 : Fin 8 → ℚ := fun j => dL_dz2 * a1 j
  let dL_db2 := dL_dz2
  let dL_dz1 : Fin 8 → ℚ := fun j => if z1 j > 0 then dL_dz2 * p.w2 j else 0
  let dL_dW1 : Fin 8 → Fin 4 → ℚ := fun j k => dL_dz1 j * s.x k
  let dL_db1 : Fin 8 → ℚ := fun j => dL_dz1 j
  let norm_sq :=
    (Finset.univ.sum fun j =>
      (Finset.univ.sum fun k => dL_dW1 j k * dL_dW1 j k)
        + dL_db1 j * dL_db1 j + dL_dw2 j * dL_dw2 j) + dL_db2 * dL_db2
  let updated : Params :=
    { W1 := fun j k => p.W1 j k - LEARNING_RATE * dL_dW1 j k
      b1 := fun j => p.b1 j - LEARNING_RATE * dL_db1 j
      w2 := fun j => p.w2 j - LEARNING_RATE * dL_dw2 j
      b2 := p.b2 - LEARNING_RATE * dL_db2 }
  (loss_out, norm_sq, updated)

/-- `math::compute_backward_and_update`: recomputes the forward pass into
`y_hat_check` and runs `backward_internal` on it; the `y_hat` argument is
discarded (`(void)y_hat` in the source). -/
def compute_backward_and_update (p : Params) (s : Sample) (y_hat : ℚ) :
    ℚ × ℚ × Params :=
  let z1 := forward_z1 p s
  let a1 := forward_a1 p s
  let y_hat_check := p.b2 + Finset.univ.sum fun j => p.w2 j * a1 j
  let _ := y_hat
  backward_internal p s y_hat_check z1 a1

/-- `Mode` from backward_layer.cpp. -/
inductive Mode
  | train
  | test
deriving DecidableEq

/-- The result of `getline` + parsing on one line of a stage's input stream:
the line was empty, failed to parse, or parsed into a sample.  (We abstract
the text parser of common.cpp; the claims treated here are about what the
stages do with each parse outcome, not about the parser itself.) -/
inductive Line
  | empty
  | malformed
  | parsed (s : Sample)
deriving DecidableEq

/-- One output record of the backward stage: the `id loss y_hat` line. -/
structure Output where
  id : ℤ
  loss : ℚ
  y_hat : ℚ
deriving DecidableEq

/-- `run_stream` from backward_layer.cpp: for each input line, skip empty and
unparseable lines; otherwise compute the forward pass, in train mode run the
backward pass with parameter update, in test mode just compute the loss, and
emit `id loss y_hat`. -/
def run_stream (mode : Mode) (p : Params) : List Line → Params × List Output
  | [] => (p, [])
  | Line.empty :: rest => run_stream mode p rest
  | Line.malformed :: rest => run_stream mode p rest
  | Line.parsed s :: rest =>
    let y_hat := compute_forward p s
    match mode with
    | Mode.train =>
      let r := compute_backward_and_update p s y_hat
      let tail := run_stream mode r.2.2 rest
      (tail.1, ⟨s.id, r.1, y_hat⟩ :: tail.2)
    | Mode.test =>
      let diff := y_hat - s.y
      let loss := 1/2 * diff * diff
      let tail := run_stream mode p rest
      (tail.1, ⟨s.id, loss, y_hat⟩ :: tail.2)

/-- The successfully parsed samples of an input stream, in arrival order. -/
def parsedSamples : List Line → List Sample :=
  List.filterMap fun l => match l with
    | Line.parsed s => some s
    | _ => none

/-- Spec-side description (refinement target for C2): the reverse-mode
gradient of the loss `0.5 * (prediction - label)^2` with respect to every
parameter, through the fixed two-layer ReLU topology. -/
structure Grad where
  dW1 : Fin 8 → Fin 4 → ℚ
  db1 : Fin 8 → ℚ
  dw2 : Fin 8 → ℚ
  db2 : ℚ

/-- Spec-side description (refinement target for C2): reverse-mode
differentiation of `0.5 * (yhat - y)^2` through hidden ReLU layer and linear
output layer, at the current parameters. -/
def reverse_mode_grad (p : Params) (s : Sample) : Grad :=
  let diff := compute_forward p s - s.y
  let dz1 : Fin 8 → ℚ :=
    fun j => if forward_z1 p s j > 0 then diff * p.w2 j else 0
  { dW1 := fun j k => dz1 j * s.x k
    db1 := fun j => dz1 j
    dw2 := fun j => diff * forward_a1 p s j
    db2 := diff }

/-- Spec-side description (refinement target for C2): one fixed-learning-rate
gradient-descent step applied to every parameter in place. -/
def sgd_spec_step (p : Params) (s : Sample) : Params :=
  let g := reverse_mode_grad p s
  { W1 := fun j k => p.W1 j k - LEARNING_RATE * g.dW1 j k
    b1 := fun j => p.b1 j - LEARNING_RATE * g.db1 j
    w2 := fun j => p.w2 j - LEARNING_RATE * g.dw2 j
    b2 := p.b2 - LEARNING_RATE * g.db2 }

/-- Spec-side description (refinement target for C2): the train-mode output
stream on a list of parsed samples — each record emits
`{id, loss = 0.5 * (prediction - label)^2, prediction}` computed at the
parameters current when it arrives, and the parameters advance by exactly one
SGD step per record, in arrival order. -/
def train_outputs_spec (p : Params) : List Sample → List Output
  | [] => []
  | s :: rest =>
    let pred := compute_forward p s
    ⟨s.id, 1/2 * (pred - s.y) * (pred - s.y), pred⟩
      :: train_outputs_spec (sgd_spec_step p s) rest

/-- `preprocess::run` from preprocess.cpp: skip empty and unparseable CSV
lines, normalize each parsed sample, emit it downstream. -/
def preprocess_emit : List Line → List Sample :=
  List.filterMap fun l => match l with
    | Line.parsed s => some (normalize_sample s)
    | _ => none

/-- `forward_layer::run` from forward_layer.cpp: skip empty and unparseable
lines, augment each parsed sample, emit it downstream. -/
def forward_emit : List Line → List Sample :=
  List.filterMap fun l => match l with
    | Line.parsed s => some (augment_features s)
    | _ => none

/-- A stage's emitted samples arrive at the next stage as parseable lines
(`sample_to_line` output always re-parses via `parse_sample_line`). -/
def toLines (ss : List Sample) : List Line := ss.map Line.parsed

/-- The three record-transforming stages composed over the pipes set up by
the trainer: preprocess -> forward_layer -> backward_layer, final output
being the backward stage's `id loss y_hat` records. -/
def pipeline (mode : Mode) (p : Params) (csv : List Line) : List Output :=
  (run_stream mode p (toLines (forward_emit (toLines (preprocess_emit csv))))).2

/-- One stdout line of the logger (logger.cpp). -/
inductive OutLine
  | sample (id : ℤ) (loss y_hat : ℚ)
  | summary (count : ℕ) (avg_loss avg_yhat : ℚ)
deriving DecidableEq

/-- One stderr line of the logger. -/
inductive ErrLine
  | parse_error
  | snapshot (count : ℕ) (avg_loss avg_yhat : ℚ)
  | final_note
deriving DecidableEq

/-- Result of `getline` + parsing on one line of the logger's input. -/
inductive LogLine
  | empty
  | malformed
  | ok (id : ℤ) (loss y_hat : ℚ)
deriving DecidableEq

/-- The logger's state: running aggregates, the two signal flags, and the
lines emitted so far on each channel. -/
structure LoggerState where
  count : ℕ
  total_loss : ℚ
  total_yhat : ℚ
  dump : Bool
  term : Bool
  out : List OutLine
  err : List ErrLine
deriving DecidableEq

/-- The logger's state at entry of `logger::run`. -/
def logger_init : LoggerState :=
  { count := 0, total_loss := 0, total_yhat := 0,
    dump := false, term := false, out := [], err := [] }

/-- One iteration's input: the line read, and whether SIGUSR1 / SIGTERM were
delivered since the previous iteration (the handlers set the corresponding
flag, which the loop body then observes). -/
structure LogIter where
  line : LogLine
  sig_dump : Bool
  sig_term : Bool
deriving DecidableEq

/-- The snapshot-request block of `logger::run` (logger.cpp lines 90-101):
if the dump flag is set, clear it, and if any record has been counted, emit
`{count, average_loss, average_prediction}` to stderr. -/
def handle_dump (st : LoggerState) : LoggerState :=
  if st.dump then
    { st with
      dump := false,
      err := if st.count > 0 then
          st.err ++ [ErrLine.snapshot st.count
            (st.total_loss / (st.count : ℚ)) (st.total_yhat / (st.count : ℚ))]
        else st.err }
  else st

/-- The main loop of `logger::run` (logger.cpp lines 56-107). -/
def logger_loop (st : LoggerState) : List LogIter → LoggerState
  | [] => st
  | it :: rest =>
    let st1 := { st with dump := st.dump || it.sig_dump,
                         term := st.term || it.sig_term }
    match it.line with
    | LogLine.empty => if st1.term then st1 else logger_loop st1 rest
    | LogLine.malformed =>
        logger_loop { st1 with err := st1.err ++ [ErrLine.parse_error] } rest
    | LogLine.ok id loss y_hat =>
      let st2 := { st1 with
        count := st1.count + 1,
        total_loss := st1.total_loss + loss,
        total_yhat := st1.total_yhat + y_hat,
        out := st1.out ++ [OutLine.sample id loss y_hat] }
      let st3 := handle_dump st2
      if st3.term then st3 else logger_loop st3 rest

/-- The final-summary block of `logger::run` (logger.cpp lines 109-128),
paired with the function's return value. -/
def logger_finalize (st : LoggerState) : LoggerState × ℕ :=
  if st.count > 0 then
    ({ st with out := st.out ++ [OutLine.summary st.count
        (st.total_loss / (st.count : ℚ)) (st.total_yhat / (st.count : ℚ))] }, 0)
  else
    ({ st with err := st.err ++ [ErrLine.final_note] }, 0)

/-- `logger::run`: the main loop followed by the final summary. -/
def logger_run (iters : List LogIter) : LoggerState × ℕ :=
  logger_finalize (logger_loop logger_init iters)

/-- Whether a stdout line is a SUMMARY line. -/
def isSummary (o : OutLine) : Bool :=
  match o with
  | OutLine.summary _ _ _ => true
  | _ => false

/-- Result of `wait` + WIFEXITED / WIFSIGNALED for one reaped child. -/
inductive ChildStatus
  | exited (code : ℕ)
  | signaled (sig : ℕ)
deriving DecidableEq

/-- One stderr log line of the trainer's wait loop. -/
inductive TrainerLog
  | child_exited (pid : ℤ) (code : ℕ)
  | child_signaled (pid : ℤ) (sig : ℕ)
deriving DecidableEq

/-- The log line the wait loop prints for one reaped child
(trainer.cpp lines 174-183): exit code and termination signal are reported
distinctly, with the child's pid. -/
def child_log (c : ℤ × ChildStatus) : TrainerLog :=
  match c.2 with
  | ChildStatus.exited code => TrainerLog.child_exited c.1 code
  | ChildStatus.signaled sig => TrainerLog.child_signaled c.1 sig

/-- The wait loop of `trainer::run` (trainer.cpp lines 169-186): reap each
child in turn, log its termination, and — once `wait` fails — return 0. -/
def wait_loop : List (ℤ × ChildStatus) → List TrainerLog × ℕ
  | [] => ([], 0)
  | c :: rest =>
    let r := wait_loop rest
    (child_log c :: r.1, r.2)

/-- `trainer::run`: returns 1 if a pipe cannot be created or a fork fails
(trainer.cpp lines 81-95, 144-159); otherwise reaps the children and returns
the wait loop's result. -/
def trainer_run (pipes_ok spawns_ok : Bool)
    (children : List (ℤ × ChildStatus)) : List TrainerLog × ℕ :=
  if !pipes_ok then ([], 1)
  else if !spawns_ok then ([], 1)
  else wait_loop children

/-- C++ istream state for the sequential reads of `load_parameters`:
the remaining whitespace-separated numeric tokens plus the fail flag.
An extraction on an already-failed stream leaves the target unchanged;
an extraction that hits the end of input stores 0 and sets the fail flag
(C++11 semantics of a failed `operator>>`). -/
structure ReadState where
  tokens : List ℚ
  failed : Bool
deriving DecidableEq

/-- One `ifs >> target` on a numeric target whose previous value is `old`. -/
def read_val (st : ReadState) (old : ℚ) : ℚ × ReadState :=
  if st.failed then (old, st)
  else match st.tokens with
    | [] => (0, { st with failed := true })
    | t :: ts => (t, { st with tokens := ts })

/-- Sequential extraction into a list of targets with given previous values. -/
def read_vals (st : ReadState) : List ℚ → List ℚ × ReadState
  | [] => ([], st)
  | old :: rest =>
    let r := read_val st old
    let rr := read_vals r.2 rest
    (r.1 :: rr.1, rr.2)

/-- The 49 parameter values in the order `load_parameters` reads them
(and `save_parameters` writes them): W1 row-major, then b1, then w2,
then b2. -/
def params_in_read_order (p : Params) : List ℚ :=
  ((List.finRange 8).flatMap fun j => (List.finRange 4).map fun k => p.W1 j k)
    ++ (List.finRange 8).map p.b1
    ++ (List.finRange 8).map p.w2
    ++ [p.b2]

/-- Reassemble a `Params` from the 49 values in read order. -/
def params_from_list (v : List ℚ) : Params :=
  { W1 := fun j k => v.getD (j.1 * 4 + k.1) 0
    b1 := fun j => v.getD (32 + j.1) 0
    w2 := fun j => v.getD (40 + j.1) 0
    b2 := v.getD 48 0 }

/-- A parameter file as `load_parameters` consumes it: the header (none when
the two leading extractions fail, e.g. an unreadable file) and the numeric
body tokens after the header. -/
structure ParamFile where
  header : Option (ℕ × ℕ)
  body : List ℚ
deriving DecidableEq

/-- `math::load_parameters` (math_layer.cpp lines 297-338), acting on the
parameter state `p`: absent file or failed/mismatched header returns false
before touching any parameter; otherwise the 49 values are extracted in
order directly into the live parameters, and the returned flag is the
stream's final state. -/
def load_parameters (file : Option ParamFile) (p : Params) : Bool × Params :=
  match file with
  | none => (false, p)
  | some f =>
    match f.header with
    | none => (false, p)
    | some hd =>
      if hd.1 ≠ HIDDEN_DIM ∨ hd.2 ≠ INPUT_DIM then (false, p)
      else
        let r := read_vals { tokens := f.body, failed := false }
          (params_in_read_order p)
        (!r.2.failed, params_from_list r.1)

/-- `backward_layer::run` in test mode (backward_layer.cpp lines 132-147):
attempt to load parameters over the default initial ones (logging the result
either way, never aborting), then run the stream; the exit code is the
stream loop's own, i.e. 0. -/
def backward_run_test (file : Option ParamFile) (input : List Line) :
    Params × List Output × ℕ :=
  let lp := load_parameters file init_params
  let r := run_stream Mode.test lp.2 input
  (r.1, r.2, 0)

/-- One file-system-visible event of `math::save_parameters`.  The function
constructs `std::ofstream ofs(path)` directly on the destination path —
which truncates whatever is there — and then streams the header and the
parameter rows into that same path. -/
inductive SaveEvent
  | open_truncate
  | write_header (hidden input : ℕ)
  | write_w1_row (row : List ℚ)
  | write_b1_row (row : List ℚ)
  | write_w2_row (row : List ℚ)
  | write_b2 (v : ℚ)
deriving DecidableEq

/-- The write sequence of `save_parameters` after the truncating open
(math_layer.cpp lines 265-292). -/
def save_writes (p : Params) : List SaveEvent :=
  SaveEvent.write_header 8 4
    :: ((List.finRange 8).map
          (fun j => SaveEvent.write_w1_row ((List.finRange 4).map (p.W1 j)))
        ++ [SaveEvent.write_b1_row ((List.finRange 8).map p.b1),
            SaveEvent.write_w2_row ((List.finRange 8).map p.w2),
            SaveEvent.write_b2 p.b2])

/-- The full event trace of `save_parameters`, in program order, every event
against the destination path itself (no temporary path is ever used). -/
def save_events (p : Params) : List SaveEvent :=
  SaveEvent.open_truncate :: save_writes p

/-- Effect of one event on the destination file's content, represented as
the list of chunks written since the last truncation. -/
def apply_event (content : List SaveEvent) (e : SaveEvent) : List SaveEvent :=
  match e with
  | SaveEvent.open_truncate => []
  | w => content ++ [w]

/-- Every content a reader can observe at the destination path while
`save_parameters` runs, starting from previous content `old`: the running
states of the event trace. -/
def observable_contents (old : List SaveEvent) (p : Params) :
    List (List SaveEvent) :=
  (save_events p).scanl apply_event old

/-- The parameter update performed by `compute_backward_and_update` is the
spec's SGD step, and the loss it reports is `0.5 * (prediction - label)^2` at
the recomputed prediction. -/
lemma compute_backward_eq_spec (p : Params) (s : Sample) (y_hat : ℚ) :
    compute_backward_and_update p s y_hat =
      (1/2 * (compute_forward p s - s.y) * (compute_forward p s - s.y),
       (compute_backward_and_update p s y_hat).2.1,
       sgd_spec_step p s) := rfl

lemma cbu_update (p : Params) (s : Sample) (y_hat : ℚ) :
    (compute_backward_and_update p s y_hat).2.2 = sgd_spec_step p s := rfl

lemma cbu_loss (p : Params) (s : Sample) (y_hat : ℚ) :
    (compute_backward_and_update p s y_hat).1 =
      1/2 * (compute_forward p s - s.y) * (compute_forward p s - s.y) := rfl

lemma parsedSamples_nil : parsedSamples [] = [] := rfl

lemma parsedSamples_empty_cons (r : List Line) :
    parsedSamples (Line.empty :: r) = parsedSamples r := rfl

lemma parsedSamples_malformed_cons (r : List Line) :
    parsedSamples (Line.malformed :: r) = parsedSamples r := rfl

lemma parsedSamples_parsed_cons (s : Sample) (r : List Line) :
    parsedSamples (Line.parsed s :: r) = s :: parsedSamples r := rfl

lemma run_stream_ids (mode : Mode) (p : Params) (input : List Line) :
    (run_stream mode p input).2.map Output.id
      = (parsedSamples input).map Sample.id := by
  induction input generalizing p with
  | nil => rfl
  | cons l rest ih =>
    cases l with
    | empty => simpa [run_stream, parsedSamples_empty_cons] using ih p
    | malformed => simpa [run_stream, parsedSamples_malformed_cons] using ih p
    | parsed s =>
      cases mode with
      | train =>
        simp [run_stream, parsedSamples_parsed_cons,
          ih (compute_backward_and_update p s (compute_forward p s)).2.2]
      | test =>
        simp [run_stream, parsedSamples_parsed_cons, ih p]

lemma parsedSamples_toLines (ss : List Sample) : parsedSamples (toLines ss) = ss := by
  induction ss with
  | nil => rfl
  | cons s rest ih => simp [toLines, parsedSamples_parsed_cons] at ih ⊢; exact ih

lemma forward_emit_toLines (ss : List Sample) :
    forward_emit (toLines ss) = ss.map augment_features := by
  induction ss with
  | nil => rfl
  | cons s rest ih => simp [toLines, forward_emit] at ih ⊢; exact ih

lemma preprocess_emit_ids (csv : List Line) :
    (preprocess_emit csv).map Sample.id = (parsedSamples csv).map Sample.id := by
  induction csv with
  | nil => rfl
  | cons l rest ih =>
    cases l with
    | empty => simpa [preprocess_emit, parsedSamples_empty_cons] using ih
    | malformed => simpa [preprocess_emit, parsedSamples_malformed_cons] using ih
    | parsed s =>
      simp [preprocess_emit, parsedSamples_parsed_cons, normalize_sample] at ih ⊢
      exact ih

/-- C2: in train mode, `run_stream` performs exactly one SGD step per
successfully parsed record, in arrival order with no skips, batching or
reordering (the final parameters are the left fold of the spec's
gradient-descent step over the parsed samples), and its output stream is
exactly the spec's `{id, loss = 0.5 * (prediction - label)^2, prediction}`
records. -/
theorem c2_train_refines_sgd (p : Params) (input : List Line) :
    (run_stream Mode.train p input).1
        = (parsedSamples input).foldl sgd_spec_step p ∧
    (run_stream Mode.train p input).2
        = train_outputs_spec p (parsedSamples input) := by
  induction input generalizing p with
  | nil => exact ⟨rfl, rfl⟩
  | cons l rest ih =>
    cases l with
    | empty => simpa [run_stream, parsedSamples_empty_cons] using ih p
    | malformed => simpa [run_stream, parsedSamples_malformed_cons] using ih p
    | parsed s =>
      have h := ih (sgd_spec_step p s)
      rw [parsedSamples_parsed_cons]
      constructor
      · simp [run_stream, cbu_update, h.1]
      · rw [train_outputs_spec, ← h.2]
        simp [run_stream, cbu_update, cbu_loss]

/-- C7: in test mode every record is scored with the same loss formula
`0.5 * (prediction - label)^2` but the parameters are left unchanged: the
parameter state after the whole run equals the state before, and every
prediction is computed at that unchanged state. -/
theorem c7_test_mode_frame (p : Params) (input : List Line) :
    (run_stream Mode.test p input).1 = p ∧
    (run_stream Mode.test p input).2 = (parsedSamples input).map fun s =>
      ⟨s.id, 1/2 * (compute_forward p s - s.y) * (compute_forward p s - s.y),
        compute_forward p s⟩ := by
  induction input with
  | nil => exact ⟨rfl, rfl⟩
  | cons l rest ih =>
    cases l with
    | empty => simpa [run_stream, parsedSamples_empty_cons] using ih
    | malformed => simpa [run_stream, parsedSamples_malformed_cons] using ih
    | parsed s =>
      constructor
      · simpa [run_stream] using ih.1
      · simp [run_stream, parsedSamples_parsed_cons, ih.2]

/-- C8: the sequence of ids at the pipeline's final output equals the
sequence of ids of the successfully parsed input records, in the same
relative order — malformed records are absent, nothing is reordered or
duplicated, and every stage preserves the id of each record it forwards. -/
theorem c8_id_order_preservation (mode : Mode) (p : Params) (csv : List Line) :
    (pipeline mode p csv).map Output.id = (parsedSamples csv).map Sample.id := by
  have h1 := run_stream_ids mode p
    (toLines (forward_emit (toLines (preprocess_emit csv))))
  have h2 := parsedSamples_toLines (forward_emit (toLines (preprocess_emit csv)))
  have h3 := forward_emit_toLines (preprocess_emit csv)
  have h4 := preprocess_emit_ids csv
  calc (pipeline mode p csv).map Output.id
      = (parsedSamples (toLines (forward_emit (toLines (preprocess_emit csv))))).map
          Sample.id := h1
    _ = ((preprocess_emit csv).map augment_features).map Sample.id := by rw [h2, h3]
    _ = (preprocess_emit csv).map Sample.id := by
          simp [augment_features]
    _ = (parsedSamples csv).map Sample.id := h4

lemma run_stream_test_params (p : Params) (input : List Line) :
    (run_stream Mode.test p input).1 = p := by
  induction input with
  | nil => rfl
  | cons l rest ih => cases l <;> simpa [run_stream] using ih

lemma handle_dump_count (st : LoggerState) : (handle_dump st).count = st.count := by
  unfold handle_dump; split <;> rfl

lemma handle_dump_out (st : LoggerState) : (handle_dump st).out = st.out := by
  unfold handle_dump; split <;> rfl

lemma logger_loop_count_mono (iters : List LogIter) :
    ∀ st : LoggerState, st.count ≤ (logger_loop st iters).count := by
  induction iters with
  | nil => intro st; exact le_refl _
  | cons it rest ih =>
    intro st
    rcases it with ⟨line, sd, stm⟩
    cases line with
    | empty =>
      simp only [logger_loop]
      split
      · exact le_refl _
      · refine le_trans ?_ (ih _)
        exact le_refl _
    | malformed =>
      simp only [logger_loop]
      refine le_trans ?_ (ih _)
      exact le_refl _
    | ok id loss y_hat =>
      simp only [logger_loop]
      split
      · rw [handle_dump_count]
        exact Nat.le_succ _
      · refine le_trans ?_ (ih _)
        rw [handle_dump_count]
        exact Nat.le_succ _

lemma logger_loop_out_of_count_eq (iters : List LogIter) :
    ∀ st : LoggerState, (logger_loop st iters).count = st.count →
      (logger_loop st iters).out = st.out := by
  induction iters with
  | nil => intro st _; rfl
  | cons it rest ih =>
    intro st h
    rcases it with ⟨line, sd, stm⟩
    cases line with
    | empty =>
      simp only [logger_loop] at h ⊢
      by_cases hc : (st.term || stm) = true
      · rw [if_pos hc]
      · rw [if_neg hc] at h ⊢
        exact ih _ h
    | malformed =>
      simp only [logger_loop] at h ⊢
      exact ih _ h
    | ok id loss y_hat =>
      exfalso
      have key : ∀ s : LoggerState, s.count = st.count + 1 →
          (logger_loop s rest).count ≠ st.count := by
        intro s hs hc
        have hm := logger_loop_count_mono rest s
        omega
      simp only [logger_loop] at h
      split at h
      · rw [handle_dump_count] at h
        simp at h
      · exact key _ (by rw [handle_dump_count]) h

lemma logger_loop_no_new_summary (iters : List LogIter) :
    ∀ st : LoggerState,
      (logger_loop st iters).out.countP isSummary = st.out.countP isSummary := by
  induction iters with
  | nil => intro st; rfl
  | cons it rest ih =>
    intro st
    rcases it with ⟨line, sd, stm⟩
    cases line with
    | empty =>
      simp only [logger_loop]
      split
      · rfl
      · rw [ih _]
    | malformed =>
      simp only [logger_loop]
      rw [ih _]
    | ok id loss y_hat =>
      simp only [logger_loop]
      split
      · rw [handle_dump_out]
        simp [List.countP_append, isSummary]
      · rw [ih _, handle_dump_out]
        simp [List.countP_append, isSummary]

lemma wait_loop_spec (children : List (ℤ × ChildStatus)) :
    wait_loop children = (children.map child_log, 0) := by
  induction children with
  | nil => rfl
  | cons c rest ih => simp [wait_loop, ih]

lemma scanl_self_mem {α β : Type} (f : α → β → α) (b : α) (l : List β) :
    b ∈ List.scanl f b l := by
  cases l <;> simp [List.scanl]

lemma apply_event_write (c : List SaveEvent) (e : SaveEvent)
    (h : e ≠ SaveEvent.open_truncate) : apply_event c e = c ++ [e] := by
  cases e with
  | open_truncate => exact absurd rfl h
  | write_header hd i => rfl
  | write_w1_row r => rfl
  | write_b1_row r => rfl
  | write_w2_row r => rfl
  | write_b2 v => rfl

lemma foldl_apply_event_writes (ws : List SaveEvent) :
    ∀ acc, SaveEvent.open_truncate ∉ ws →
      ws.foldl apply_event acc = acc ++ ws := by
  induction ws with
  | nil => intro acc _; simp
  | cons w ws ih =>
    intro acc h
    have h1 : w ≠ SaveEvent.open_truncate := fun he => h (by simp [he])
    have h2 : SaveEvent.open_truncate ∉ ws := fun hm => h (by simp [hm])
    rw [List.foldl_cons, apply_event_write _ _ h1, ih _ h2, List.append_assoc]
    rfl

lemma open_not_mem_save_writes (p : Params) :
    SaveEvent.open_truncate ∉ save_writes p := by
  simp [save_writes]

lemma final_content_eq (old : List SaveEvent) (p : Params) :
    (save_events p).foldl apply_event old = save_writes p := by
  rw [save_events, List.foldl_cons]
  have h0 : apply_event old SaveEvent.open_truncate = [] := rfl
  rw [h0, foldl_apply_event_writes _ _ (open_not_mem_save_writes p),
    List.nil_append]

lemma header_only_observable (old : List SaveEvent) (p : Params) :
    [SaveEvent.write_header 8 4] ∈ observable_contents old p := by
  rw [observable_contents, save_events, save_writes, List.scanl_cons,
    List.scanl_cons]
  exact List.mem_cons_of_mem _ (List.mem_cons_of_mem _ (scanl_self_mem _ _ _))

/-- C1 counterexample: the claim "run returns 0 only if every stage exited
cleanly with code 0" is false — a child that exits with status 1 still
yields return value 0 from the wait loop. -/
theorem c1_counterexample :
    (trainer_run true true [(101, ChildStatus.exited 1)]).2 = 0 ∧
    ChildStatus.exited 1 ≠ ChildStatus.exited 0 :=
  ⟨rfl, by decide⟩

/-- C1 amended: once all pipes and forks succeed, `trainer::run` returns 0
regardless of the stages' exit statuses (non-zero is returned only when pipe
creation or spawning fails), while the wait loop logs each reaped child's
termination distinctly — one log entry per child, reporting its pid and
either its normal exit code or its terminating signal. -/
theorem c1_amended_logging (pipes_ok spawns_ok : Bool)
    (children : List (ℤ × ChildStatus)) :
    (trainer_run pipes_ok spawns_ok children).2 =
      (if pipes_ok && spawns_ok then 0 else 1) ∧
    (trainer_run true true children).1 = children.map child_log := by
  constructor
  · cases pipes_ok <;> cases spawns_ok <;> simp [trainer_run, wait_loop_spec]
  · simp [trainer_run, wait_loop_spec]

lemma read_vals_failed_vals (olds : List ℚ) :
    ∀ ts : List ℚ, read_vals { tokens := ts, failed := true } olds
      = (olds, { tokens := ts, failed := true }) := by
  induction olds with
  | nil => intro ts; rfl
  | cons o rest ih => intro ts; simp [read_vals, read_val, ih]

lemma params_in_read_order_length (p : Params) :
    (params_in_read_order p).length = 49 := by
  simp [params_in_read_order, Function.comp_def, List.sum_replicate, smul_eq_mul]

lemma params_in_read_order_two_cons (p : Params) :
    ∃ a b r, params_in_read_order p = a :: b :: r := by
  have h := params_in_read_order_length p
  cases hP : params_in_read_order p with
  | nil => rw [hP] at h; simp at h
  | cons a t =>
    cases ht : t with
    | nil => rw [hP, ht] at h; simp at h
    | cons b r => subst ht; exact ⟨a, b, r, rfl⟩

/-- C3 counterexample: a parameter file whose header matches the topology but
whose body is truncated (here: a single value 5) makes `load_parameters`
return false after having already overwritten part of the parameter state —
a partial load is observable, contradicting "whenever load_parameters returns
false, the parameter state is exactly what it was before the call". -/
theorem c3_counterexample_truncated_load :
    (load_parameters (some ⟨some (8, 4), [5]⟩) init_params).1 = false ∧
    (load_parameters (some ⟨some (8, 4), [5]⟩) init_params).2 ≠ init_params := by
  obtain ⟨a, b, r, hP⟩ := params_in_read_order_two_cons init_params
  have hread : read_vals { tokens := [5], failed := false }
      (params_in_read_order init_params)
      = (5 :: 0 :: r, { tokens := [], failed := true }) := by
    rw [hP]
    simp [read_vals, read_val, read_vals_failed_vals]
  have hload : load_parameters (some ⟨some (8, 4), [5]⟩) init_params
      = (false, params_from_list (5 :: 0 :: r)) := by
    unfold load_parameters
    dsimp only
    rw [if_neg (by simp [HIDDEN_DIM, INPUT_DIM]), hread]
    rfl
  constructor
  · rw [hload]
  · rw [hload]
    intro heq
    have h00 : (params_from_list (5 :: 0 :: r)).W1 0 0 = init_params.W1 0 0 :=
      congrFun (congrFun (congrArg Params.W1 heq) 0) 0
    have hl : (params_from_list (5 :: 0 :: r)).W1 0 0 = 5 := by
      simp [params_from_list]
    have hr : init_params.W1 0 0 = 1/10 := by
      simp [init_params, init_W1]
    rw [hl, hr] at h00
    norm_num at h00

/-- C3 amended: an absent parameter file or one whose header dimensions do
not match the running topology is a soft failure — `load_parameters` returns
false with every in-memory parameter untouched (hence at its default initial
value in `backward_layer::run`), and the stage is not aborted: its test-mode
run still returns 0 and runs on the default initial parameters.  (A file with
a matching header but truncated body, however, can partially overwrite
parameters before returning false.) -/
theorem c3_amended_soft_failure (p : Params) (file : Option ParamFile)
    (input : List Line)
    (h : file = none ∨
      ∃ f hd, file = some f ∧
        (f.header = none ∨
          (f.header = some hd ∧ (hd.1 ≠ HIDDEN_DIM ∨ hd.2 ≠ INPUT_DIM)))) :
    (load_parameters file p).1 = false ∧
    (load_parameters file p).2 = p ∧
    (backward_run_test file input).2.2 = 0 ∧
    (backward_run_test file input).1 = init_params := by
  have hload : ∀ q : Params, load_parameters file q = (false, q) := by
    intro q
    rcases h with rfl | ⟨f, hd, rfl, hf⟩
    · rfl
    · rcases hf with hnone | ⟨hsome, hmis⟩
      · simp [load_parameters, hnone]
      · simp [load_parameters, hsome, hmis]
  refine ⟨by rw [hload p], by rw [hload p], rfl, ?_⟩
  show (run_stream Mode.test (load_parameters file init_params).2 input).1 = _
  rw [hload init_params, run_stream_test_params]

/-- C3 witness: instantiating the amended soft-failure theorem at an absent
file. -/
theorem c3_witness :
    (load_parameters none init_params).1 = false ∧
    (load_parameters none init_params).2 = init_params ∧
    (backward_run_test none []).2.2 = 0 ∧
    (backward_run_test none []).1 = init_params :=
  c3_amended_soft_failure init_params none [] (Or.inl rfl)

/-- C4 counterexample: `save_parameters` is not atomic from a reader's
perspective.  Starting from a destination whose prior content is a lone b2
line, a reader can observe the state right after the header write — which is
neither the old content nor the final content. -/
theorem c4_counterexample_not_atomic :
    [SaveEvent.write_header 8 4]
        ∈ observable_contents [SaveEvent.write_b2 7] init_params ∧
    [SaveEvent.write_header 8 4] ≠ [SaveEvent.write_b2 7] ∧
    [SaveEvent.write_header 8 4]
        ≠ (save_events init_params).foldl apply_event [SaveEvent.write_b2 7] := by
  refine ⟨header_only_observable _ _, by simp, ?_⟩
  rw [final_content_eq]
  intro h1
  have hlen := congrArg List.length h1
  simp [save_writes] at hlen

/-- C4 amended: `save_parameters` writes directly to the destination path —
its first file-system event truncates the destination in place, and a reader
can then observe the intermediate header-only content, which differs from the
final content; no temporary path and rename is used, so a half-written file
is observable. -/
theorem c4_amended_partial_observable (old : List SaveEvent) (p : Params) :
    (save_events p).head? = some SaveEvent.open_truncate ∧
    [SaveEvent.write_header 8 4] ∈ observable_contents old p ∧
    [SaveEvent.write_header 8 4] ≠ (save_events p).foldl apply_event old := by
  refine ⟨rfl, header_only_observable old p, ?_⟩
  rw [final_content_eq]
  intro h
  have hlen := congrArg List.length h
  simp [save_writes] at hlen

/-- C5: when the logger's loop observes a pending snapshot request, the
pending flag is cleared in every case, the aggregates and the normal output
are untouched, and a `{count, average_loss, average_prediction}` snapshot is
emitted to the diagnostic channel exactly when at least one record has been
counted — with zero records counted nothing is emitted and the flag is still
cleared. -/
theorem c5_snapshot_handling (st : LoggerState) :
    (handle_dump { st with dump := true }).dump = false ∧
    (handle_dump { st with dump := true }).err =
      st.err ++ (if 0 < st.count then
        [ErrLine.snapshot st.count (st.total_loss / (st.count : ℚ))
          (st.total_yhat / (st.count : ℚ))]
       else []) ∧
    (handle_dump { st with dump := true }).out = st.out ∧
    (handle_dump { st with dump := true }).count = st.count := by
  by_cases h : 0 < st.count <;> simp [handle_dump, h]

/-- C6: at the logger's normal termination it returns 0; if at least one
record was processed, the normal output ends with exactly one
`SUMMARY count average_loss average_prediction` line and the diagnostic
channel gets nothing new; if zero records were processed, the normal output
is empty and a diagnostic note is emitted instead. -/
theorem c6_final_summary (iters : List LogIter) :
    (logger_run iters).2 = 0 ∧
    (logger_run iters).1.out =
      (if (logger_loop logger_init iters).count = 0 then []
       else (logger_loop logger_init iters).out
         ++ [OutLine.summary (logger_loop logger_init iters).count
             ((logger_loop logger_init iters).total_loss
                / ((logger_loop logger_init iters).count : ℚ))
             ((logger_loop logger_init iters).total_yhat
                / ((logger_loop logger_init iters).count : ℚ))]) ∧
    (logger_run iters).1.out.countP isSummary
      = (if (logger_loop logger_init iters).count = 0 then 0 else 1) ∧
    (logger_run iters).1.err =
      (logger_loop logger_init iters).err
        ++ (if (logger_loop logger_init iters).count = 0
            then [ErrLine.final_note] else []) := by
  by_cases h : (logger_loop logger_init iters).count = 0
  · have hout : (logger_loop logger_init iters).out = [] :=
      logger_loop_out_of_count_eq iters logger_init (by rw [h]; rfl)
    simp [logger_run, logger_finalize, h, hout]
  · have hpos : 0 < (logger_loop logger_init iters).count := Nat.pos_of_ne_zero h
    have hcnt : (logger_loop logger_init iters).out.countP isSummary = 0 := by
      rw [logger_loop_no_new_summary]; rfl
    simp [logger_run, logger_finalize, h, hpos, List.countP_append, hcnt,
      isSummary]

/-- C9: the claim that normalization is the identity. -/
theorem c9_normalize_identity (s : Sample) : normalize_sample s = s := by
  cases s with
  | mk x y id =>
    simp only [normalize_sample]
    congr 1
    funext i
    fin_cases i <;> simp [normalize_features, FEATURE_MEAN, FEATURE_STD]

/-- C10: `compute_backward_and_update` ignores its `y_hat` argument: any two
values passed there yield the same loss, the same (squared) gradient norm and
the same updated parameters. -/
theorem c10_yhat_ignored (p : Params) (s : Sample) (a b : ℚ) :
    compute_backward_and_update p s a = compute_backward_and_update p s b := rfl

end SysSW
